import Mathlib

/-!
Verification development for the database abstraction layer of the
ai-learning-hub backend.

The layer under study maps a MongoDB-style query interface onto three
interchangeable backends.  We shallowly embed the two backends that carry
the logic under scrutiny:

* the file backend (`db-file.js`, shipped in the repository as an unnamed
  source part): an in-memory list of JSON documents per collection, with
  `matchQuery` as the in-memory filter evaluator, and
* the relational shim (`db-postgres.js`): `buildWhereClause`,
  `buildSetClause`, `buildSortClause` and the field-name maps inside
  `findOne`/`insertOne`, modelled as translations into a small condition
  AST plus an evaluator for the SQL equality semantics the generated
  statements have.

JavaScript values are modelled by the inductive `JVal`; JS objects are
association lists in insertion order (`Doc`).  Where JS semantics depend
on reference identity (strict equality of two distinct object literals)
the model returns `false`, which is the observable behaviour for every
query a caller can issue (a filter literal is never reference-equal to a
stored document's value).  Regular-expression matching is abstracted as a
function parameter `rtest`, since no claim depends on regex semantics.
-/

namespace AiHub

/-- JavaScript values as stored in documents and written in filters:
`null`, `undefined`, strings, numbers (integer-valued in this system),
booleans, arrays and plain objects. -/
inductive JVal where
  | null : JVal
  | undefined : JVal
  | str : String → JVal
  | num : Int → JVal
  | bool : Bool → JVal
  | arr : List JVal → JVal
  | obj : List (String × JVal) → JVal

/-- A JS object in insertion order: documents, filters, update payloads,
rows. -/
abbrev Doc := List (String × JVal)

/-- JS truthiness of a value (`if (v)`).  NaN does not arise in the
integer-valued model. -/
def truthy : JVal → Bool
  | .null => false
  | .undefined => false
  | .str s => s ≠ ""
  | .num n => n ≠ 0
  | .bool b => b
  | .arr _ => true
  | .obj _ => true

/-- `typeof v === 'object'` : true for arrays, plain objects and `null`. -/
def isObjectType : JVal → Bool
  | .arr _ => true
  | .obj _ => true
  | .null => true
  | _ => false

/-- JS strict equality `===` (also SameValueZero, which agrees with it in
the absence of NaN).  Arrays and objects compare by reference; a stored
value and a filter literal are never the same reference, so those cases
are `false`. -/
def jsStrictEq : JVal → JVal → Bool
  | .null, .null => true
  | .undefined, .undefined => true
  | .str a, .str b => a = b
  | .num a, .num b => a = b
  | .bool a, .bool b => a = b
  | _, _ => false

/-- JS `<` restricted to the comparisons the sort comparator actually
performs: numeric on two numbers, lexicographic on two strings; every
other combination (including any comparison involving `undefined`)
yields `false`, as the coercing JS comparison does on this data. -/
def jsLt : JVal → JVal → Bool
  | .num a, .num b => a < b
  | .str a, .str b => a < b
  | _, _ => false

/-- JS `>` under the same restriction as `jsLt`. -/
def jsGt : JVal → JVal → Bool
  | .num a, .num b => b < a
  | .str a, .str b => b < a
  | _, _ => false

/-- Property read `o[k]` on an object modelled as a list: first binding
wins (JS objects have unique keys; the model is used with unique keys). -/
def docGet (d : Doc) (k : String) : Option JVal :=
  (d.find? (fun kv => kv.1 == k)).map (·.2)

/-- Property read defaulting to `undefined`, as `o[k]` evaluates in JS
when the key is absent. -/
def docGetU (d : Doc) (k : String) : JVal :=
  (docGet d k).getD .undefined

/-- Property read on a `JVal` (only objects have properties; `arr.$in`
and the like are `undefined`). -/
def getProp : JVal → String → Option JVal
  | .obj fs, k => docGet fs k
  | _, _ => none

/-- Whether an object field list has a binding for `k` (Bool form, used
for decidable hypotheses). -/
def hasProp (fs : Doc) (k : String) : Bool :=
  fs.any (fun kv => kv.1 == k)

/-- JS property assignment `o[k] = v`: overwrite in place if the key
exists, else append (insertion order preserved). -/
def objSet (d : Doc) (k : String) (v : JVal) : Doc :=
  match d with
  | [] => [(k, v)]
  | kv :: rest => if kv.1 == k then (k, v) :: rest else kv :: objSet rest k v

/-- The field list of an object value; non-objects contribute no fields
(`Object.entries`/`Object.assign` on the primitives callers never pass). -/
def objFields : JVal → Doc
  | .obj fs => fs
  | _ => []

/-- `Array.prototype.includes` (SameValueZero membership); calling it on
a non-array throws in JS and is unreachable for the callers, modelled as
`false`. -/
def jsIncludes : JVal → JVal → Bool
  | .arr l, x => l.any (fun e => jsStrictEq e x)
  | _, _ => false

/-- One key of `FileDB.matchQuery` (`db-file.js`): operator objects are
entered when the filter value is truthy and of object type; inside, only
`$in` and `$regex` are consulted — any other operator key is skipped, so
an operator object carrying neither behaves as no constraint.  Non-object
(or falsy) filter values are compared with strict equality against the
document's field. -/
def matchCond (rtest : String → String → String → Bool)
    (doc : Doc) (k : String) (qv : JVal) : Bool :=
  if truthy qv && isObjectType qv then
    (match getProp qv "$in" with
     | some inv => !truthy inv || jsIncludes inv (docGetU doc k)
     | none => true)
    &&
    (match getProp qv "$regex" with
     | some rv =>
       !truthy rv ||
         rtest (jvToText rv) (jvToText (getProp qv "$options" |>.getD (.str "")))
           (jvToText (docGetU doc k))
     | none => true)
  else
    jsStrictEq (docGetU doc k) qv
where
  /-- coercion to the text handed to the regex engine; the engine itself
  is the abstract parameter `rtest`, so the encoding is irrelevant to
  every claim. -/
  jvToText : JVal → String
    | .str s => s
    | _ => ""

/-- `FileDB.matchQuery(doc, query)`: conjunction over the filter's keys. -/
def matchQuery (rtest : String → String → String → Bool)
    (doc : Doc) (query : Doc) : Bool :=
  query.all (fun kv => matchCond rtest doc kv.1 kv.2)

/-- The identity the file backend's `insertOne` assigns:
`doc._id || <fresh random hex>` (the generated token is the
parameter `gen`). -/
def assignedId (gen : String) (doc : Doc) : JVal :=
  match docGet doc "_id" with
  | some v => if truthy v then v else .str gen
  | none => .str gen

/-- The creation timestamp the file backend's `insertOne` attaches:
`doc.createdAt || new Date()` (the current date is the parameter `now`). -/
def assignedCreatedAt (now : JVal) (doc : Doc) : JVal :=
  match docGet doc "createdAt" with
  | some v => if truthy v then v else now
  | none => now

/-- The document the file backend stores:
`{...doc, _id: doc._id || gen, createdAt: doc.createdAt || now}`. -/
def fileInsertDoc (gen : String) (now : JVal) (doc : Doc) : Doc :=
  objSet (objSet doc "_id" (assignedId gen doc)) "createdAt"
    (assignedCreatedAt now doc)

/-- `FileDB.collection(name).insertOne(doc)`: append the completed
document and report its `_id` as `insertedId`. -/
def fileInsertOne (gen : String) (now : JVal) (coll : List Doc) (doc : Doc) :
    List Doc × JVal :=
  (coll ++ [fileInsertDoc gen now doc], assignedId gen doc)

/-- `FileDB.collection(name).findOne(query)`: first document in current
order matching the filter. -/
def fileFindOne (rtest : String → String → String → Bool)
    (coll : List Doc) (q : Doc) : Option Doc :=
  coll.find? (fun d => matchQuery rtest d q)

/-- The filtering step of `FileDB.collection(name).find(query)`. -/
def fileFind (rtest : String → String → String → Bool)
    (coll : List Doc) (q : Doc) : List Doc :=
  coll.filter (fun d => matchQuery rtest d q)

/-- The sort comparator of the file backend's `find(...).sort(spec)`:
for ascending (`order === 1`) it returns `a[key] > b[key] ? 1 : -1`, else
`a[key] < b[key] ? 1 : -1`; an element stays in front exactly when the
comparator is non-positive. -/
def fileSortCmpLe (key : String) (order : Int) (a b : Doc) : Bool :=
  if order = 1 then !jsGt (docGetU a key) (docGetU b key)
  else !jsLt (docGetU a key) (docGetU b key)

/-- Insert an element into a list in front of the first element it
may precede under `le` (the stable comparison-sort building block). -/
def insertLe (le : α → α → Bool) (x : α) : List α → List α
  | [] => [x]
  | y :: ys => if le x y then x :: y :: ys else y :: insertLe le x ys

/-- The model of the JS engine's comparison sort: a stable sort directed
by the boolean comparison `le a b` = "a may stay in front of b". -/
def sortByLe (le : α → α → Bool) : List α → List α
  | [] => []
  | x :: xs => insertLe le x (sortByLe le xs)

/-- `find(query).sort({key: order}).toArray()` on the file backend: the
matching documents ordered by the source's comparator. -/
def fileFindSort (rtest : String → String → String → Bool)
    (coll : List Doc) (q : Doc) (key : String) (order : Int) : List Doc :=
  sortByLe (fileSortCmpLe key order) (fileFind rtest coll q)

/-- `Object.assign(target, source)`: copy the source's fields onto the
target in order. -/
def objAssign (d : Doc) (fields : Doc) : Doc :=
  fields.foldl (fun m kv => objSet m kv.1 kv.2) d

/-- One `$push` application of the file backend's `updateOne`: replace a
non-array field with `[]` before appending, hence a fresh
one-element array when the field was not an array. -/
def pushField (d : Doc) (kv : String × JVal) : Doc :=
  match docGet d kv.1 with
  | some (.arr l) => objSet d kv.1 (.arr (l ++ [kv.2]))
  | _ => objSet d kv.1 (.arr [kv.2])

/-- The mutation the file backend's `updateOne` performs on the matched
document: apply `$set` if truthy, then `$push` if truthy; no other
operator (`$pull`, `$inc`, ...) is consulted. -/
def applyFileUpdate (upd : Doc) (doc : Doc) : Doc :=
  let d1 :=
    match docGet upd "$set" with
    | some sv => if truthy sv then objAssign doc (objFields sv) else doc
    | none => doc
  match docGet upd "$push" with
  | some pv => if truthy pv then (objFields pv).foldl pushField d1 else d1
  | none => d1

/-- Locate the first match and mutate it in place (`findIndex` plus
in-place update); `none` when no document matches. -/
def fileUpdateGo (rtest : String → String → String → Bool)
    (q : Doc) (upd : Doc) : List Doc → Option (List Doc)
  | [] => none
  | d :: ds =>
    if matchQuery rtest d q then some (applyFileUpdate upd d :: ds)
    else (fileUpdateGo rtest q upd ds).map (d :: ·)

/-- `FileDB.collection(name).updateOne(query, update)`: zero counts when
nothing matches, otherwise the mutated collection with
`matchedCount: 1, modifiedCount: 1` regardless of whether the document
changed. -/
def fileUpdateOne (rtest : String → String → String → Bool)
    (coll : List Doc) (q : Doc) (upd : Doc) : List Doc × Nat × Nat :=
  match fileUpdateGo rtest q upd coll with
  | none => (coll, 0, 0)
  | some coll' => (coll', 1, 1)

/-- The `fieldMap` object literal of the relational shim's `insertOne`
(`db-postgres.js`), as its entry list. -/
def insertFieldPairs : List (String × String) :=
  [("_id", "id"), ("userId", "user_id"), ("apiKey", "api_key"),
   ("created", "created_at"), ("lastActive", "last_active"),
   ("authorId", "author_id"), ("authorName", "author_name"),
   ("updated", "updated_at"), ("ownerId", "owner_id"),
   ("ownerName", "owner_name"), ("discussionId", "discussion_id"),
   ("githubUrl", "github_url"), ("demoUrl", "demo_url"),
   ("maxParticipants", "max_participants")]

/-- The write-side field translation `fieldMap[key] || key` of the
relational `insertOne`: logical document field name to column name;
unmapped names pass through unchanged (no mapped column name is falsy,
so the `||` default fires exactly on absent keys). -/
def insertFieldMap (k : String) : String :=
  match insertFieldPairs.find? (fun p => p.1 == k) with
  | some p => p.2
  | none => k

/-- The `mappedDoc` object built inside the relational `insertOne`
(`mappedDoc[column] = value` over the document's entries). -/
def pgMappedDoc (doc : Doc) : Doc :=
  doc.foldl (fun m kv => objSet m (insertFieldMap kv.1) kv.2) []

/-- The column list of the generated INSERT: every mapped column except
the identity column `id`. -/
def pgInsertColumns (doc : Doc) : Doc :=
  (pgMappedDoc doc).filter (fun kv => kv.1 != "id")

/-- The row the INSERT ... RETURNING * produces, with `newId` the
engine-assigned serial identity.  Columns the statement does not set and
the schema defaults (e.g. `created_at`) only add further columns and are
not consulted by any claim, so they are left out of the row model. -/
def pgInsertRow (doc : Doc) (newId : Int) : Doc :=
  ("id", JVal.num newId) :: pgInsertColumns doc

/-- The read-side reshaping of the relational `findOne`:
`{_id: row.id, ...row, apiKey: row.api_key, userId: row.user_id,
created: row.created_at, lastActive: row.last_active}` — only these four
columns get a logical alias; every raw column is kept as well. -/
def pgReadDoc (row : Doc) : Doc :=
  let d0 : Doc := [("_id", docGetU row "id")]
  let d1 := row.foldl (fun m kv => objSet m kv.1 kv.2) d0
  let d2 := objSet d1 "apiKey" (docGetU row "api_key")
  let d3 := objSet d2 "userId" (docGetU row "user_id")
  let d4 := objSet d3 "created" (docGetU row "created_at")
  objSet d4 "lastActive" (docGetU row "last_active")

/-- The query-side field map of the relational `findOne` (only `_id` and
`apiKey` are translated before the WHERE clause is built). -/
def findOneFieldMap (k : String) : String :=
  if k == "_id" then "id" else if k == "apiKey" then "api_key" else k

/-- One condition of the WHERE clause `buildWhereClause` emits: either a
parameterized equality `col = $n` or the `$or` disjunction of
conjunctions of such equalities.  The positional parameter numbers are
determined by list order and carry no extra information, so the AST
stores the parameter values in place. -/
inductive PgCond where
  | eqc (col : String) (v : JVal)
  | orc (disjuncts : List (List (String × JVal)))

/-- The sub-filter list of a `$or` value (`value.map(...)` over the
condition objects; a non-array `$or` throws in JS and is unreachable). -/
def orDisjuncts : JVal → List (List (String × JVal))
  | .arr conds => conds.map objFields
  | _ => []

/-- `buildWhereClause` of `db-postgres.js`: `_id`/`id` keys translate to
the identity column, `$or` to a disjunction of equality conjunctions,
and every other key — whatever its value, operator object included — to
a parameterized equality against that value.  An empty query yields the
always-true clause `1=1`, i.e. the empty conjunction. -/
def buildWhereClause (query : Doc) : List PgCond :=
  query.map (fun kv =>
    if kv.1 == "_id" || kv.1 == "id" then .eqc "id" kv.2
    else if kv.1 == "$or" then .orc (orDisjuncts kv.2)
    else .eqc kv.1 kv.2)

/-- SQL evaluation of `col = $n` between a column value and the bound
parameter: scalar parameters compare by value; SQL NULL compares to
nothing; an object parameter is serialized by the driver (JSON text) and
equals no scalar column value — on a non-text column the statement
errors, which likewise returns no row.  Structural array equality covers
the array-column case. -/
def sqlEq : JVal → JVal → Bool
  | .str a, .str b => a = b
  | .num a, .num b => a = b
  | .bool a, .bool b => a = b
  | .arr a, .arr b =>
    a.length = b.length && (a.zip b).all (fun p => jsStrictEq p.1 p.2)
  | _, _ => false

/-- Whether a row satisfies one generated condition. -/
def evalPgCond (row : Doc) : PgCond → Bool
  | .eqc c v => sqlEq (docGetU row c) v
  | .orc ds => ds.any (fun fs => fs.all (fun kv => sqlEq (docGetU row kv.1) kv.2))

/-- Whether a row satisfies the conjunction of generated conditions. -/
def pgRowMatches (row : Doc) (cs : List PgCond) : Bool :=
  cs.all (evalPgCond row)

/-- The argument `updateOne` hands to `buildSetClause`:
`update.$set || update`, i.e. the `$set` payload when truthy, else the
update object itself. -/
def updateArg (upd : Doc) : Doc :=
  match docGet upd "$set" with
  | some sv => if truthy sv then objFields sv else upd
  | none => upd

/-- `buildSetClause` of `db-postgres.js`: one assignment `key = $n` per
entry, skipping the identity keys `_id` and `id`; the key becomes the
assigned column name verbatim. -/
def buildSetClause (u : Doc) : Doc :=
  u.filter (fun kv => kv.1 != "_id" && kv.1 != "id")

/-- One ORDER BY item of `buildSortClause`: column name and whether the
direction is DESC. -/
def buildSortClause (sortObj : List (String × Int)) : List (String × Bool) :=
  sortObj.map (fun kv =>
    ((if kv.1 == "created" then "created_at" else kv.1), kv.2 == -1))

/-- The configuration inputs `db.js`'s `connectDB` branches on. -/
structure DbEnv where
  databaseUrl : Bool
  dbHost : Bool
  useFileDb : Bool
  production : Bool
  mongodbUri : Bool

/-- The outcome of the backend selection in `db.js`: delegate to the
postgres module, return the file backend, return the Mongo handle, or
terminate the process (`process.exit(1)`). -/
inductive BackendChoice where
  | postgresModule : BackendChoice
  | fileBackend : BackendChoice
  | mongo : BackendChoice
  | fatalExit : BackendChoice
deriving DecidableEq

/-- `connectDB` of `db.js`: prefer the relational module when a
connection string or host is configured; else the file backend when
forced or in production without a Mongo URI; else dial Mongo, and on a
connection failure fall back to the file backend in production but exit
the process otherwise. -/
def connectDBSelect (e : DbEnv) (mongoConnectOk : Bool) : BackendChoice :=
  if e.databaseUrl || e.dbHost then .postgresModule
  else if e.useFileDb || (e.production && !e.mongodbUri) then .fileBackend
  else if mongoConnectOk then .mongo
  else if e.production then .fileBackend
  else .fatalExit

/-- A concrete (vacuous) regex engine used to instantiate counterexamples
whose filters contain no regex operator. -/
def rtestNone : String → String → String → Bool := fun _ _ _ => false

/-- Bool test that a value is a number (used for decidable sort-field
hypotheses). -/
def isNum : JVal → Bool
  | .num _ => true
  | _ => false

/-- The integer carried by a numeric value (0 otherwise; only applied
under an `isNum` hypothesis). -/
def numOf : JVal → Int
  | .num n => n
  | _ => 0

/-! ## Basic lemmas about the object model -/

theorem docGet_cons (a : String × JVal) (d : Doc) (k : String) :
    docGet (a :: d) k = if a.1 == k then some a.2 else docGet d k := by
  by_cases h : a.1 == k <;> simp [docGet, List.find?_cons, h]

theorem docGet_append (l₁ l₂ : Doc) (k : String) :
    docGet (l₁ ++ l₂) k = (docGet l₁ k).or (docGet l₂ k) := by
  induction l₁ with
  | nil => simp [docGet]
  | cons a rest ih =>
    by_cases h : a.1 == k <;> simp [docGet_cons, h, ih]

theorem docGet_eq_none_of_forall (d : Doc) (k : String)
    (h : ∀ kv ∈ d, kv.1 ≠ k) : docGet d k = none := by
  induction d with
  | nil => rfl
  | cons a rest ih =>
    have ha : a.1 ≠ k := h a (by simp)
    rw [docGet_cons]
    simp only [beq_iff_eq, ha, if_false]
    exact ih (fun kv hkv => h kv (by simp [hkv]))

theorem docGet_objSet_self (d : Doc) (k : String) (v : JVal) :
    docGet (objSet d k v) k = some v := by
  induction d with
  | nil => simp [objSet, docGet_cons]
  | cons a rest ih =>
    by_cases h : a.1 == k
    · simp [objSet, h, docGet_cons]
    · simp [objSet, h, docGet_cons, ih]

theorem docGet_objSet_ne (d : Doc) (k k' : String) (v : JVal)
    (h : k' ≠ k) : docGet (objSet d k v) k' = docGet d k' := by
  have hkk' : ¬ (k = k') := fun hh => h hh.symm
  induction d with
  | nil =>
    simp [objSet, docGet_cons, docGet, hkk']
  | cons a rest ih =>
    by_cases hak : a.1 == k
    · have hak' : a.1 = k := beq_iff_eq.mp hak
      simp [objSet, hak, docGet_cons, hak', hkk']
    · simp [objSet, hak, docGet_cons, ih]

theorem objSet_of_get_none (d : Doc) (k : String) (v : JVal)
    (h : docGet d k = none) : objSet d k v = d ++ [(k, v)] := by
  induction d with
  | nil => rfl
  | cons a rest ih =>
    rw [docGet_cons] at h
    by_cases hak : a.1 == k
    · simp [hak] at h
    · simp [hak] at h
      simp [objSet, hak, ih h]

theorem foldl_objSet_of_disjoint (l : Doc) (acc : Doc)
    (hdisj : ∀ kv ∈ l, docGet acc kv.1 = none)
    (hnd : (l.map Prod.fst).Nodup) :
    l.foldl (fun m kv => objSet m kv.1 kv.2) acc = acc ++ l := by
  induction l generalizing acc with
  | nil => simp
  | cons a rest ih =>
    have hset : objSet acc a.1 a.2 = acc ++ [a] := by
      rw [objSet_of_get_none acc a.1 a.2 (hdisj a (by simp))]
    have hnd' : (rest.map Prod.fst).Nodup := by
      simpa using hnd.of_cons
    have hnc := List.nodup_cons.mp
      (show (a.1 :: rest.map Prod.fst).Nodup by simpa using hnd)
    have hanotin : ∀ kv ∈ rest, kv.1 ≠ a.1 := by
      intro kv hkv hk
      exact hnc.1 (hk ▸ List.mem_map.mpr ⟨kv, hkv, rfl⟩)
    have hdisj' : ∀ kv ∈ rest, docGet (acc ++ [a]) kv.1 = none := by
      intro kv hkv
      rw [docGet_append, hdisj kv (by simp [hkv]), Option.none_or]
      refine docGet_eq_none_of_forall _ _ ?_
      intro kv' hkv'
      have hva : kv' = a := by simpa using hkv'
      rw [hva]
      exact (hanotin kv hkv).symm
    calc (a :: rest).foldl (fun m kv => objSet m kv.1 kv.2) acc
        = rest.foldl (fun m kv => objSet m kv.1 kv.2) (acc ++ [a]) := by
          simp [hset]
      _ = (acc ++ [a]) ++ rest := ih (acc ++ [a]) hdisj' hnd'
      _ = acc ++ (a :: rest) := by simp

/-! ## Lemmas about the comparison sort model -/

theorem insertLe_perm (le : α → α → Bool) (x : α) (l : List α) :
    (insertLe le x l).Perm (x :: l) := by
  induction l with
  | nil => exact List.Perm.refl _
  | cons y ys ih =>
    by_cases h : le x y
    · simp [insertLe, h]
    · simp only [insertLe, h, if_false]
      exact (ih.cons y).trans (List.Perm.swap x y ys)

theorem sortByLe_perm (le : α → α → Bool) (l : List α) :
    (sortByLe le l).Perm l := by
  induction l with
  | nil => exact List.Perm.refl _
  | cons x xs ih =>
    exact (insertLe_perm le x (sortByLe le xs)).trans (ih.cons x)

theorem insertLe_pairwise (le : α → α → Bool) (Q : α → Prop) (x : α)
    (l : List α) (hQx : Q x) (hQl : ∀ y ∈ l, Q y)
    (htot : ∀ a b, Q a → Q b → le a b = true ∨ le b a = true)
    (htrans : ∀ a b c, Q a → Q b → Q c →
      le a b = true → le b c = true → le a c = true)
    (hl : l.Pairwise (fun a b => le a b = true)) :
    (insertLe le x l).Pairwise (fun a b => le a b = true) := by
  induction l with
  | nil => simp [insertLe]
  | cons y ys ih =>
    have hQy : Q y := hQl y (by simp)
    have hQys : ∀ z ∈ ys, Q z := fun z hz => hQl z (by simp [hz])
    rcases List.pairwise_cons.mp hl with ⟨hy, hys⟩
    by_cases h : le x y
    · simp only [insertLe, h, if_true]
      refine List.pairwise_cons.mpr ⟨?_, hl⟩
      intro z hz
      rcases List.mem_cons.mp hz with hz | hz
      · rw [hz]; exact h
      · exact htrans x y z hQx hQy (hQys z hz) h (hy z hz)
    · simp only [insertLe, h, if_false]
      refine List.pairwise_cons.mpr ⟨?_, ih hQys hys⟩
      intro z hz
      have hz' : z ∈ x :: ys := (insertLe_perm le x ys).mem_iff.mp hz
      rcases List.mem_cons.mp hz' with hz' | hz'
      · rw [hz']
        rcases htot x y hQx hQy with hxy | hyx
        · exact absurd hxy h
        · exact hyx
      · exact hy z hz'

theorem sortByLe_pairwise (le : α → α → Bool) (Q : α → Prop)
    (l : List α) (hQl : ∀ y ∈ l, Q y)
    (htot : ∀ a b, Q a → Q b → le a b = true ∨ le b a = true)
    (htrans : ∀ a b c, Q a → Q b → Q c →
      le a b = true → le b c = true → le a c = true) :
    (sortByLe le l).Pairwise (fun a b => le a b = true) := by
  induction l with
  | nil => simp [sortByLe]
  | cons x xs ih =>
    have hQxs : ∀ y ∈ xs, Q y := fun y hy => hQl y (by simp [hy])
    refine insertLe_pairwise le Q x (sortByLe le xs) (hQl x (by simp)) ?_
      htot htrans (ih hQxs)
    intro y hy
    exact hQxs y ((sortByLe_perm le xs).mem_iff.mp hy)

/-! ## The file backend's insert/findOne round trip (by `_id`) -/

theorem matchQuery_id_self (rtest : String → String → String → Bool)
    (d : Doc) (v : JVal) (hget : docGet d "_id" = some v)
    (hscalar : isObjectType v = false) :
    matchQuery rtest d [("_id", v)] = true := by
  have hU : docGetU d "_id" = v := by simp [docGetU, hget]
  have hrefl : jsStrictEq v v = true := by
    cases v <;> simp_all [jsStrictEq, isObjectType]
  simp only [matchQuery, List.all_cons, List.all_nil, Bool.and_true]
  simp only [matchCond, hscalar, Bool.and_false, if_false, hU]
  exact hrefl

theorem fileInsertDoc_id (gen : String) (now : JVal) (doc : Doc) :
    docGet (fileInsertDoc gen now doc) "_id" = some (assignedId gen doc) := by
  rw [fileInsertDoc, docGet_objSet_ne _ _ _ _ (by decide),
    docGet_objSet_self]

theorem fileInsertDoc_createdAt (gen : String) (now : JVal) (doc : Doc) :
    docGet (fileInsertDoc gen now doc) "createdAt"
      = some (assignedCreatedAt now doc) := by
  rw [fileInsertDoc, docGet_objSet_self]

theorem fileInsertDoc_other (gen : String) (now : JVal) (doc : Doc)
    (k : String) (h1 : k ≠ "_id") (h2 : k ≠ "createdAt") :
    docGet (fileInsertDoc gen now doc) k = docGet doc k := by
  rw [fileInsertDoc, docGet_objSet_ne _ _ _ _ h2, docGet_objSet_ne _ _ _ _ h1]

/-- Shared round-trip fact: when the file backend's `insertOne` assigns a
scalar identity that no existing document of the collection matches, a
`findOne` on the grown collection filtering by `_id` with the returned
`insertedId` yields exactly the stored document. -/
theorem fileInsert_find_id (rtest : String → String → String → Bool)
    (gen : String) (now : JVal) (coll : List Doc) (doc : Doc)
    (hfresh : ∀ d ∈ coll,
      matchQuery rtest d [("_id", assignedId gen doc)] = false)
    (hscalar : isObjectType (assignedId gen doc) = false) :
    fileFindOne rtest (fileInsertOne gen now coll doc).1
        [("_id", (fileInsertOne gen now coll doc).2)]
      = some (fileInsertDoc gen now doc) := by
  unfold fileFindOne fileInsertOne
  rw [List.find?_append]
  have hnone : coll.find?
      (fun d => matchQuery rtest d [("_id", assignedId gen doc)]) = none := by
    rw [List.find?_eq_none]
    intro d hd
    simp [hfresh d hd]
  rw [hnone]
  simp only [Option.none_or, List.find?_cons]
  rw [matchQuery_id_self rtest _ _ (fileInsertDoc_id gen now doc) hscalar]

/-! ## Lemmas about operator handling in the two translators -/

theorem docGet_of_hasProp_false (fs : Doc) (k : String)
    (h : hasProp fs k = false) : docGet fs k = none := by
  refine docGet_eq_none_of_forall fs k ?_
  intro kv hkv hk
  have : fs.any (fun kv => kv.1 == k) = true :=
    List.any_eq_true.mpr ⟨kv, hkv, by simp [hk]⟩
  rw [hasProp] at h
  rw [h] at this
  exact Bool.false_ne_true this

theorem matchQuery_single_op_ignored
    (rtest : String → String → String → Bool) (doc : Doc) (f : String)
    (fs : Doc) (hin : hasProp fs "$in" = false)
    (hre : hasProp fs "$regex" = false) :
    matchQuery rtest doc [(f, JVal.obj fs)] = true := by
  simp only [matchQuery, List.all_cons, List.all_nil, Bool.and_true]
  simp only [matchCond, truthy, isObjectType, Bool.and_self, if_true,
    getProp, docGet_of_hasProp_false fs "$in" hin,
    docGet_of_hasProp_false fs "$regex" hre]

theorem matchQuery_or_ignored
    (rtest : String → String → String → Bool) (doc : Doc)
    (subs : List JVal) :
    matchQuery rtest doc [("$or", JVal.arr subs)] = true := by
  simp [matchQuery, matchCond, truthy, isObjectType, getProp]

theorem matchQuery_in_membership
    (rtest : String → String → String → Bool) (doc : Doc) (f : String)
    (l : List JVal) :
    matchQuery rtest doc [(f, JVal.obj [("$in", JVal.arr l)])]
      = l.any (fun e => jsStrictEq e (docGetU doc f)) := by
  simp [matchQuery, matchCond, truthy, isObjectType, getProp, docGet_cons,
    docGet, jsIncludes]

theorem sqlEq_obj_right (x : JVal) (fs : Doc) : sqlEq x (JVal.obj fs) = false := by
  cases x <;> rfl

theorem buildWhereClause_single_plain (f : String) (v : JVal)
    (hid : (f == "_id" || f == "id") = false) (hor : (f == "$or") = false) :
    buildWhereClause [(f, v)] = [.eqc f v] := by
  simp only [Bool.or_eq_false_iff, beq_eq_false_iff_ne, ne_eq] at hid hor
  simp [buildWhereClause, hid.1, hid.2, hor]

theorem buildWhereClause_or (v : JVal) :
    buildWhereClause [("$or", v)] = [.orc (orDisjuncts v)] := by
  simp [buildWhereClause]

/-! ## Lemmas about the file backend's updateOne -/

/-- Bool form of the truthiness test `if (update.$op)` on an update
payload's operator key. -/
def truthyProp (u : Doc) (k : String) : Bool :=
  truthy (docGetU u k)

theorem applyFileUpdate_noop (upd : Doc) (d : Doc)
    (hset : truthyProp upd "$set" = false)
    (hpush : truthyProp upd "$push" = false) :
    applyFileUpdate upd d = d := by
  rw [truthyProp, docGetU] at hset hpush
  unfold applyFileUpdate
  cases hs : docGet upd "$set" <;> cases hp : docGet upd "$push" <;>
    simp_all

theorem fileUpdateGo_isSome (rtest : String → String → String → Bool)
    (q upd : Doc) (l : List Doc) :
    (fileUpdateGo rtest q upd l).isSome
      = l.any (fun d => matchQuery rtest d q) := by
  induction l with
  | nil => rfl
  | cons d ds ih =>
    by_cases h : matchQuery rtest d q
    · simp [fileUpdateGo, h]
    · simp [fileUpdateGo, h, ih]

theorem fileUpdateGo_noop (rtest : String → String → String → Bool)
    (q upd : Doc) (l : List Doc)
    (hset : truthyProp upd "$set" = false)
    (hpush : truthyProp upd "$push" = false) :
    fileUpdateGo rtest q upd l
      = if l.any (fun d => matchQuery rtest d q) then some l else none := by
  induction l with
  | nil => rfl
  | cons d ds ih =>
    by_cases h : matchQuery rtest d q
    · simp [fileUpdateGo, h, applyFileUpdate_noop upd d hset hpush]
    · by_cases hds : ds.any (fun d => matchQuery rtest d q) <;>
        simp [fileUpdateGo, h, ih, hds]

/-! ## Lemmas about the relational write/read field translation -/

theorem docGet_some_mem (d : Doc) (k : String) (v : JVal)
    (h : docGet d k = some v) : (k, v) ∈ d := by
  induction d with
  | nil => simp [docGet] at h
  | cons a rest ih =>
    rw [docGet_cons] at h
    by_cases hak : a.1 == k
    · simp only [hak, if_true, Option.some.injEq] at h
      have : a = (k, v) := by
        obtain ⟨a1, a2⟩ := a
        simp_all [beq_iff_eq.mp hak]
      simp [this]
    · simp only [hak, if_false] at h
      exact List.mem_cons_of_mem a (ih h)

theorem pgMappedDoc_eq (doc : Doc)
    (hnd : (doc.map (fun kv => insertFieldMap kv.1)).Nodup) :
    pgMappedDoc doc = doc.map (fun kv => (insertFieldMap kv.1, kv.2)) := by
  unfold pgMappedDoc
  have hfold :
      doc.foldl (fun m kv => objSet m (insertFieldMap kv.1) kv.2) []
        = (doc.map (fun kv => (insertFieldMap kv.1, kv.2))).foldl
            (fun m kv => objSet m kv.1 kv.2) [] := by
    rw [List.foldl_map]
  rw [hfold]
  rw [foldl_objSet_of_disjoint _ [] (fun kv _ => rfl) (by
    rw [List.map_map]
    exact hnd)]
  simp

theorem docGet_map_insertFieldMap (doc : Doc) (k : String) (v : JVal)
    (hnd : (doc.map (fun kv => insertFieldMap kv.1)).Nodup)
    (hget : docGet doc k = some v) :
    docGet (doc.map (fun kv => (insertFieldMap kv.1, kv.2)))
      (insertFieldMap k) = some v := by
  induction doc with
  | nil => simp [docGet] at hget
  | cons a rest ih =>
    rw [docGet_cons] at hget
    rw [List.map_cons, docGet_cons]
    by_cases hak : a.1 == k
    · have : insertFieldMap a.1 = insertFieldMap k := by
        rw [beq_iff_eq.mp hak]
      simp_all
    · simp only [hak, if_false] at hget
      have hmem : (k, v) ∈ rest := docGet_some_mem rest k v hget
      have hkmem : insertFieldMap k ∈
          rest.map (fun kv => insertFieldMap kv.1) :=
        List.mem_map.mpr ⟨(k, v), hmem, rfl⟩
      have hnd' : (insertFieldMap a.1 ::
          rest.map (fun kv => insertFieldMap kv.1)).Nodup := by
        simpa only [List.map_cons] using hnd
      have hnc := List.nodup_cons.mp hnd'
      have hne : ¬ ((insertFieldMap a.1) == insertFieldMap k) := by
        intro hcontra
        exact hnc.1 (beq_iff_eq.mp hcontra ▸ hkmem)
      simp only [hne, if_false]
      exact ih hnc.2 hget

theorem docGet_filter_key (l : Doc) (p : String × JVal → Bool) (k : String)
    (hp : ∀ v, p (k, v) = true) :
    docGet (l.filter p) k = docGet l k := by
  induction l with
  | nil => rfl
  | cons a rest ih =>
    by_cases hpa : p a
    · rw [List.filter_cons_of_pos hpa, docGet_cons, docGet_cons, ih]
    · have hak : ¬ (a.1 == k) := by
        intro hcontra
        obtain ⟨a1, a2⟩ := a
        have : a1 = k := beq_iff_eq.mp hcontra
        rw [this] at hpa
        exact hpa (hp a2)
      rw [List.filter_cons_of_neg hpa, docGet_cons]
      simp only [hak, if_false]
      exact ih

theorem insertFieldMap_cases (k : String) :
    (∃ p ∈ insertFieldPairs, p.1 = k ∧ insertFieldMap k = p.2) ∨
    (insertFieldMap k = k ∧ ∀ p ∈ insertFieldPairs, p.1 ≠ k) := by
  unfold insertFieldMap
  cases hf : insertFieldPairs.find? (fun p => p.1 == k) with
  | some p =>
    left
    refine ⟨p, List.mem_of_find?_eq_some hf, ?_, rfl⟩
    have := List.find?_some hf
    exact beq_iff_eq.mp this
  | none =>
    right
    refine ⟨rfl, ?_⟩
    intro p hp hpk
    have := List.find?_eq_none.mp hf p hp
    simp [hpk] at this

theorem insertFieldMap_ne_id (k : String) (h1 : k ≠ "_id") (h2 : k ≠ "id") :
    insertFieldMap k ≠ "id" := by
  rcases insertFieldMap_cases k with ⟨p, hp, hpk, hmap⟩ | ⟨hself, _⟩
  · rw [hmap]
    intro hid
    have : p.1 = "_id" := by
      have hall : ∀ q ∈ insertFieldPairs, q.2 = "id" → q.1 = "_id" := by decide
      exact hall p hp hid
    exact h1 (hpk ▸ this)
  · rw [hself]; exact h2

theorem insertFieldMap_ne_read_aliases (k : String) :
    insertFieldMap k ≠ "_id" ∧ insertFieldMap k ≠ "apiKey" ∧
    insertFieldMap k ≠ "userId" ∧ insertFieldMap k ≠ "created" ∧
    insertFieldMap k ≠ "lastActive" := by
  rcases insertFieldMap_cases k with ⟨p, hp, hpk, hmap⟩ | ⟨hself, hkeys⟩
  · rw [hmap]
    have hall : ∀ q ∈ insertFieldPairs, q.2 ≠ "_id" ∧ q.2 ≠ "apiKey" ∧
        q.2 ≠ "userId" ∧ q.2 ≠ "created" ∧ q.2 ≠ "lastActive" := by decide
    exact hall p hp
  · rw [hself]
    refine ⟨?_, ?_, ?_, ?_, ?_⟩ <;> intro hk <;> subst hk
    · exact hkeys ("_id", "id") (by decide) rfl
    · exact hkeys ("apiKey", "api_key") (by decide) rfl
    · exact hkeys ("userId", "user_id") (by decide) rfl
    · exact hkeys ("created", "created_at") (by decide) rfl
    · exact hkeys ("lastActive", "last_active") (by decide) rfl

theorem pgInsertRow_get (doc : Doc) (newId : Int) (k : String) (v : JVal)
    (hnd : (doc.map (fun kv => insertFieldMap kv.1)).Nodup)
    (hget : docGet doc k = some v)
    (h1 : k ≠ "_id") (h2 : k ≠ "id") :
    docGet (pgInsertRow doc newId) (insertFieldMap k) = some v := by
  have hneid := insertFieldMap_ne_id k h1 h2
  unfold pgInsertRow pgInsertColumns
  rw [docGet_cons]
  have hcond : ¬ ((("id", JVal.num newId).1) == insertFieldMap k) := by
    intro hcontra
    exact hneid (beq_iff_eq.mp hcontra).symm
  simp only [hcond, if_false]
  rw [pgMappedDoc_eq doc hnd]
  rw [docGet_filter_key _ _ _ (fun v' => by simp [hneid])]
  exact docGet_map_insertFieldMap doc k v hnd hget

theorem pgInsertRow_keys (doc : Doc) (newId : Int)
    (hnd : (doc.map (fun kv => insertFieldMap kv.1)).Nodup) :
    ∀ kv ∈ pgInsertRow doc newId,
      kv.1 = "id" ∨ ∃ k₀, kv.1 = insertFieldMap k₀ := by
  intro kv hkv
  unfold pgInsertRow pgInsertColumns at hkv
  rcases List.mem_cons.mp hkv with h | h
  · left; rw [h]
  · right
    have hmem := List.mem_of_mem_filter h
    rw [pgMappedDoc_eq doc hnd] at hmem
    rcases List.mem_map.mp hmem with ⟨kv₀, _, hkv₀⟩
    exact ⟨kv₀.1, by rw [← hkv₀]⟩

theorem pgInsertRow_keys_nodup (doc : Doc) (newId : Int)
    (hnd : (doc.map (fun kv => insertFieldMap kv.1)).Nodup) :
    ((pgInsertRow doc newId).map Prod.fst).Nodup := by
  unfold pgInsertRow pgInsertColumns
  rw [List.map_cons]
  refine List.nodup_cons.mpr ⟨?_, ?_⟩
  · intro hmem
    rcases List.mem_map.mp hmem with ⟨kv, hkv, hfst⟩
    have hp := (List.mem_filter.mp hkv).2
    rw [hfst] at hp
    simp at hp
  · have hsub : ((pgMappedDoc doc).filter (fun kv => kv.1 != "id")).map
        Prod.fst |>.Sublist ((pgMappedDoc doc).map Prod.fst) :=
      (List.filter_sublist _).map Prod.fst
    refine hsub.nodup ?_
    rw [pgMappedDoc_eq doc hnd, List.map_map]
    exact hnd

theorem pgReadDoc_eq (row : Doc)
    (hro : ∀ kv ∈ row, kv.1 ≠ "_id" ∧ kv.1 ≠ "apiKey" ∧ kv.1 ≠ "userId" ∧
      kv.1 ≠ "created" ∧ kv.1 ≠ "lastActive")
    (hnd : (row.map Prod.fst).Nodup) :
    pgReadDoc row =
      [("_id", docGetU row "id")] ++ row ++
      [("apiKey", docGetU row "api_key"), ("userId", docGetU row "user_id"),
       ("created", docGetU row "created_at"),
       ("lastActive", docGetU row "last_active")] := by
  unfold pgReadDoc
  dsimp only
  have hd1 : row.foldl (fun m kv => objSet m kv.1 kv.2)
      [("_id", docGetU row "id")] = [("_id", docGetU row "id")] ++ row := by
    refine foldl_objSet_of_disjoint row _ ?_ hnd
    intro kv hkv
    refine docGet_eq_none_of_forall _ _ ?_
    intro kv' hkv'
    have : kv' = ("_id", docGetU row "id") := by simpa using hkv'
    rw [this]
    exact ((hro kv hkv).1).symm
  rw [hd1]
  have hrowget : ∀ s : String, s ≠ "_id" → (∀ kv ∈ row, kv.1 ≠ s) →
      docGet ([("_id", docGetU row "id")] ++ row) s = none := by
    intro s hs hrow
    rw [docGet_append]
    rw [docGet_eq_none_of_forall _ _ (by
      intro kv' hkv'
      have : kv' = ("_id", docGetU row "id") := by simpa using hkv'
      rw [this]
      exact fun hc => hs hc.symm)]
    rw [Option.none_or]
    exact docGet_eq_none_of_forall _ _ hrow
  have hg2 := hrowget "apiKey" (by decide) (fun kv hkv => (hro kv hkv).2.1)
  rw [objSet_of_get_none _ _ _ hg2]
  have hg3 : docGet (([("_id", docGetU row "id")] ++ row) ++
      [("apiKey", docGetU row "api_key")]) "userId" = none := by
    rw [docGet_append,
      hrowget "userId" (by decide) (fun kv hkv => (hro kv hkv).2.2.1)]
    rfl
  rw [objSet_of_get_none _ _ _ hg3]
  have hg4 : docGet ((([("_id", docGetU row "id")] ++ row) ++
      [("apiKey", docGetU row "api_key")]) ++
      [("userId", docGetU row "user_id")]) "created" = none := by
    rw [docGet_append, docGet_append,
      hrowget "created" (by decide) (fun kv hkv => (hro kv hkv).2.2.2.1)]
    rfl
  rw [objSet_of_get_none _ _ _ hg4]
  have hg5 : docGet (((([("_id", docGetU row "id")] ++ row) ++
      [("apiKey", docGetU row "api_key")]) ++
      [("userId", docGetU row "user_id")]) ++
      [("created", docGetU row "created_at")]) "lastActive" = none := by
    rw [docGet_append, docGet_append, docGet_append,
      hrowget "lastActive" (by decide) (fun kv hkv => (hro kv hkv).2.2.2.2)]
    rfl
  rw [objSet_of_get_none _ _ _ hg5]
  simp

theorem isNum_exists (v : JVal) (h : isNum v = true) :
    ∃ n : Int, v = JVal.num n := by
  cases v <;> simp [isNum] at h
  exact ⟨_, rfl⟩

theorem fileSortCmpLe_desc_num (key : String) (a b : Doc)
    (ha : isNum (docGetU a key) = true) (hb : isNum (docGetU b key) = true) :
    fileSortCmpLe key (-1) a b = true ↔
      numOf (docGetU b key) ≤ numOf (docGetU a key) := by
  obtain ⟨m, hA⟩ := isNum_exists _ ha
  obtain ⟨n, hB⟩ := isNum_exists _ hb
  rw [fileSortCmpLe, hA, hB]
  have hord : ¬ ((-1 : Int) = 1) := by norm_num
  simp only [hord, if_false, jsLt, numOf]
  simp [Int.not_lt]

/-! ## Claim theorems -/

/-- C1 (counterexample): on the file backend, inserting a document and
then calling `findOne` with the logical identity name — the filter
`{id: insertedId}` — finds nothing, because `FileDB.matchQuery` performs
no identity-name translation and compares the absent `id` field of the
stored document (which carries `_id`) against the identity. -/
theorem C1_counterexample :
    (fileInsertOne "a1b2c3" (JVal.num 111) [] [("title", JVal.str "T")]).2
      = JVal.str "a1b2c3" ∧
    fileFindOne rtestNone
      (fileInsertOne "a1b2c3" (JVal.num 111) [] [("title", JVal.str "T")]).1
      [("id", JVal.str "a1b2c3")] = none := ⟨rfl, rfl⟩

/-- C1 (amended): on the file backend, `insertOne` returns the assigned
identity, and — provided the assigned identity is scalar and fresh for
the collection — a subsequent `findOne` filtering by the storage-level
identity name `_id` (not the logical name `id`, which the file backend
does not translate) returns exactly the stored document: the inserted
one with `_id` and `createdAt` populated and every other field
unchanged. -/
theorem C1_file_insert_findOne_roundtrip
    (rtest : String → String → String → Bool) (gen : String) (now : JVal)
    (coll : List Doc) (doc : Doc)
    (hfresh : ∀ d ∈ coll,
      matchQuery rtest d [("_id", assignedId gen doc)] = false)
    (hscalar : isObjectType (assignedId gen doc) = false) :
    (fileInsertOne gen now coll doc).2 = assignedId gen doc ∧
    fileFindOne rtest (fileInsertOne gen now coll doc).1
        [("_id", (fileInsertOne gen now coll doc).2)]
      = some (fileInsertDoc gen now doc) ∧
    docGet (fileInsertDoc gen now doc) "_id" = some (assignedId gen doc) ∧
    docGet (fileInsertDoc gen now doc) "createdAt"
      = some (assignedCreatedAt now doc) ∧
    (∀ k, k ≠ "_id" → k ≠ "createdAt" →
      docGet (fileInsertDoc gen now doc) k = docGet doc k) := by
  exact ⟨rfl, fileInsert_find_id rtest gen now coll doc hfresh hscalar,
    fileInsertDoc_id gen now doc, fileInsertDoc_createdAt gen now doc,
    fun k h1 h2 => fileInsertDoc_other gen now doc k h1 h2⟩

/-- C1 (witness): the amended round trip at a concrete input — a
one-document collection, a fresh generated identity, a lookup by
`{_id: insertedId}`. -/
theorem C1_witness :
    (∀ d ∈ ([[("_id", JVal.str "zz9"), ("x", JVal.num 1)]] : List Doc),
      matchQuery rtestNone d
        [("_id", assignedId "a1b2c3" [("title", JVal.str "T")])] = false) ∧
    isObjectType (assignedId "a1b2c3" [("title", JVal.str "T")]) = false ∧
    ((fileInsertOne "a1b2c3" (JVal.num 111)
        [[("_id", JVal.str "zz9"), ("x", JVal.num 1)]]
        [("title", JVal.str "T")]).2
      = assignedId "a1b2c3" [("title", JVal.str "T")] ∧
    fileFindOne rtestNone
        (fileInsertOne "a1b2c3" (JVal.num 111)
          [[("_id", JVal.str "zz9"), ("x", JVal.num 1)]]
          [("title", JVal.str "T")]).1
        [("_id", (fileInsertOne "a1b2c3" (JVal.num 111)
          [[("_id", JVal.str "zz9"), ("x", JVal.num 1)]]
          [("title", JVal.str "T")]).2)]
      = some (fileInsertDoc "a1b2c3" (JVal.num 111) [("title", JVal.str "T")]) ∧
    docGet (fileInsertDoc "a1b2c3" (JVal.num 111) [("title", JVal.str "T")])
        "_id" = some (assignedId "a1b2c3" [("title", JVal.str "T")]) ∧
    docGet (fileInsertDoc "a1b2c3" (JVal.num 111) [("title", JVal.str "T")])
        "createdAt"
      = some (assignedCreatedAt (JVal.num 111) [("title", JVal.str "T")]) ∧
    (∀ k, k ≠ "_id" → k ≠ "createdAt" →
      docGet (fileInsertDoc "a1b2c3" (JVal.num 111) [("title", JVal.str "T")])
          k
        = docGet [("title", JVal.str "T")] k)) :=
  ⟨by decide, by decide,
    C1_file_insert_findOne_roundtrip rtestNone "a1b2c3" (JVal.num 111)
      [[("_id", JVal.str "zz9"), ("x", JVal.num 1)]]
      [("title", JVal.str "T")] (by decide) (by decide)⟩

/-- C3 (code_bug): the relational translator does not implement `$inc`.
For the caller's update `{$inc: {likes: 1}}` (server.js like endpoint),
`updateOne` passes the whole update object to `buildSetClause` (since
`update.$set` is absent), which emits a single assignment to a column
literally named `$inc` — the column `likes` is never assigned, so three
serialized calls cannot leave `likes = 3`. -/
theorem C3_pg_inc_not_applied :
    buildSetClause (updateArg [("$inc", JVal.obj [("likes", JVal.num 1)])])
      = [("$inc", JVal.obj [("likes", JVal.num 1)])] ∧
    "likes" ∉ (buildSetClause
      (updateArg [("$inc", JVal.obj [("likes", JVal.num 1)])])).map
        Prod.fst := by
  refine ⟨rfl, ?_⟩
  intro hmem
  simp [buildSetClause, updateArg, docGet, truthy, objFields] at hmem

/-- C4 (counterexample): under the file backend's `matchQuery`, the
filter `{$or: [{category: "a"}, {category: "b"}]}` matches a document
whose category is `"c"` — the `$or` key is an operator object without
`$in`/`$regex` and is silently skipped, so the filter matches every
document, not only those with category `"a"` or `"b"`. -/
theorem C4_counterexample :
    matchQuery rtestNone [("category", JVal.str "c")]
      [("$or", JVal.arr [JVal.obj [("category", JVal.str "a")],
                         JVal.obj [("category", JVal.str "b")]])] = true :=
  rfl

/-- C4 (amended): the `$or` semantics split by backend. The relational
`buildWhereClause` translates `{$or: [F1, ..., Fn]}` (each `Fi` a
conjunction of equality constraints) into a disjunction that a row
satisfies iff it satisfies at least one `Fi` — the claim as stated.  The
file backend's `matchQuery` ignores the `$or` operator entirely, so
there every document matches such a filter. -/
theorem C4_or_semantics :
    (∀ (row : Doc) (fs : List Doc),
      pgRowMatches row (buildWhereClause [("$or", JVal.arr (fs.map JVal.obj))])
        = fs.any (fun f => f.all (fun kv => sqlEq (docGetU row kv.1) kv.2))) ∧
    (∀ (rtest : String → String → String → Bool) (doc : Doc)
      (subs : List JVal),
      matchQuery rtest doc [("$or", JVal.arr subs)] = true) := by
  constructor
  · intro row fs
    rw [buildWhereClause_or]
    simp only [pgRowMatches, List.all_cons, List.all_nil, Bool.and_true,
      evalPgCond, orDisjuncts, List.map_map, List.any_map]
    rfl
  · intro rtest doc subs
    exact matchQuery_or_ignored rtest doc subs

/-- C5 (counterexample): a filter with the unrecognized operator `$gt`
is not rejected: the file backend's `matchQuery` evaluates it as if the
constraint were absent, so a document with `likes = 0` matches
`{likes: {$gt: 5}}`. -/
theorem C5_counterexample :
    matchQuery rtestNone [("likes", JVal.num 0)]
      [("likes", JVal.obj [("$gt", JVal.num 5)])] = true := rfl

/-- C5 (amended): neither translator rejects unrecognized operators.
The file backend's `matchQuery` treats any truthy operator object
carrying neither `$in` nor `$regex` as no constraint at all (every
document matches), and the relational `buildWhereClause` compiles such a
filter entry into a plain parameterized equality against the operator
object instead of surfacing a translator error. -/
theorem C5_unrecognized_not_rejected :
    (∀ (rtest : String → String → String → Bool) (doc : Doc) (f : String)
      (fs : Doc), hasProp fs "$in" = false → hasProp fs "$regex" = false →
      matchQuery rtest doc [(f, JVal.obj fs)] = true) ∧
    (∀ (f : String) (fs : Doc),
      (f == "_id" || f == "id") = false → (f == "$or") = false →
      buildWhereClause [(f, JVal.obj fs)] = [.eqc f (JVal.obj fs)]) := by
  constructor
  · intro rtest doc f fs hin hre
    exact matchQuery_single_op_ignored rtest doc f fs hin hre
  · intro f fs hid hor
    exact buildWhereClause_single_plain f (JVal.obj fs) hid hor

/-- C5 (witness): the amended statement at the filter
`{likes: {$gt: 5}}` on an empty document and on the relational
translator. -/
theorem C5_witness :
    (hasProp [("$gt", JVal.num 5)] "$in" = false ∧
     hasProp [("$gt", JVal.num 5)] "$regex" = false ∧
     matchQuery rtestNone [] [("likes", JVal.obj [("$gt", JVal.num 5)])]
       = true) ∧
    ((("likes" == "_id") || ("likes" == "id")) = false ∧
     ("likes" == "$or") = false ∧
     buildWhereClause [("likes", JVal.obj [("$gt", JVal.num 5)])]
       = [.eqc "likes" (JVal.obj [("$gt", JVal.num 5)])]) :=
  ⟨⟨by decide, by decide,
    C5_unrecognized_not_rejected.1 rtestNone [] "likes"
      [("$gt", JVal.num 5)] (by decide) (by decide)⟩,
   ⟨by decide, by decide,
    C5_unrecognized_not_rejected.2 "likes" [("$gt", JVal.num 5)]
      (by decide) (by decide)⟩⟩

/-- C6 (counterexample): a row whose `category` column is `"a"` — a
member of the supplied list — does not satisfy the relational
translation of `{category: {$in: ["a"]}}`: `buildWhereClause` does not
recognize `$in` and emits an equality against the operator object, which
no scalar column value equals. -/
theorem C6_counterexample :
    jsStrictEq (JVal.str "a")
      (docGetU [("category", JVal.str "a")] "category") = true ∧
    pgRowMatches [("category", JVal.str "a")]
      (buildWhereClause
        [("category", JVal.obj [("$in", JVal.arr [JVal.str "a"])])])
      = false := ⟨rfl, rfl⟩

/-- C6 (amended): `$in` semantics split by backend.  The file backend's
`matchQuery` matches `{field: {$in: list}}` iff the document's field
value is a member of the list (strict-equality membership), and the
empty list matches nothing — the claim as stated.  The relational
`buildWhereClause` does not recognize `$in`: it compiles the filter to an
equality against the operator object, which matches no row regardless of
membership. -/
theorem C6_in_semantics :
    (∀ (rtest : String → String → String → Bool) (doc : Doc) (f : String)
      (l : List JVal),
      matchQuery rtest doc [(f, JVal.obj [("$in", JVal.arr l)])]
        = l.any (fun e => jsStrictEq e (docGetU doc f))) ∧
    (∀ (rtest : String → String → String → Bool) (doc : Doc) (f : String),
      matchQuery rtest doc [(f, JVal.obj [("$in", JVal.arr [])])] = false) ∧
    (∀ (row : Doc) (f : String) (l : List JVal),
      (f == "_id" || f == "id") = false → (f == "$or") = false →
      pgRowMatches row
        (buildWhereClause [(f, JVal.obj [("$in", JVal.arr l)])]) = false) := by
  refine ⟨fun rtest doc f l => matchQuery_in_membership rtest doc f l,
    fun rtest doc f => matchQuery_in_membership rtest doc f [], ?_⟩
  intro row f l hid hor
  rw [buildWhereClause_single_plain f _ hid hor]
  simp [pgRowMatches, evalPgCond, sqlEq_obj_right]

/-- C6 (witness): the amended statement at `{category: {$in: ["a","b"]}}`
on a matching document, at the empty list, and on the relational
translator. -/
theorem C6_witness :
    (matchQuery rtestNone [("category", JVal.str "a")]
      [("category", JVal.obj [("$in", JVal.arr [JVal.str "a", JVal.str "b"])])]
        = [JVal.str "a", JVal.str "b"].any
            (fun e => jsStrictEq e
              (docGetU [("category", JVal.str "a")] "category"))) ∧
    (matchQuery rtestNone [("category", JVal.str "a")]
      [("category", JVal.obj [("$in", JVal.arr [])])] = false) ∧
    ((("category" == "_id") || ("category" == "id")) = false ∧
     ("category" == "$or") = false ∧
     pgRowMatches [("category", JVal.str "a")]
       (buildWhereClause
         [("category", JVal.obj [("$in", JVal.arr [JVal.str "a"])])])
       = false) :=
  ⟨C6_in_semantics.1 rtestNone [("category", JVal.str "a")] "category"
      [JVal.str "a", JVal.str "b"],
   C6_in_semantics.2.1 rtestNone [("category", JVal.str "a")] "category",
   ⟨by decide, by decide,
    C6_in_semantics.2.2 [("category", JVal.str "a")] "category"
      [JVal.str "a"] (by decide) (by decide)⟩⟩

/-- C8 (counterexample): the file backend's `updateOne` applies `$set`
verbatim via `Object.assign`, so an update payload naming `_id` changes
the document's identity: updating the document with `_id = "a"` by
`{$set: {_id: "b"}}` leaves the collection holding `_id = "b"`. -/
theorem C8_counterexample :
    (fileUpdateOne rtestNone [[("_id", JVal.str "a"), ("likes", JVal.num 0)]]
      [("_id", JVal.str "a")] [("$set", JVal.obj [("_id", JVal.str "b")])]).1
      = [[("_id", JVal.str "b"), ("likes", JVal.num 0)]] := rfl

/-- C8 (amended): only the relational backend protects the identity:
`buildSetClause` (applied to `update.$set || update`) never emits an
assignment to the `id` or `_id` column, whatever the update payload.
The file backend offers no such protection (see the counterexample), and
neither backend enforces uniqueness of caller-supplied identities. -/
theorem C8_pg_set_clause_excludes_identity (upd : Doc) :
    "id" ∉ (buildSetClause (updateArg upd)).map Prod.fst ∧
    "_id" ∉ (buildSetClause (updateArg upd)).map Prod.fst := by
  constructor <;>
  · intro hmem
    rcases List.mem_map.mp hmem with ⟨kv, hkv, hfst⟩
    have hp := (List.mem_filter.mp hkv).2
    rw [hfst] at hp
    simp at hp

/-- C10 (confirmed): whenever the file backend's `updateOne` filter
matches at least one document the call reports
`matchedCount 1, modifiedCount 1`, and when the update payload carries
no truthy `$set` and no truthy `$push` — e.g. only `$pull` or `$inc`,
which the file variant does not apply — the collection is returned
byte-for-byte unchanged: `modifiedCount` does not reflect an actual
modification. -/
theorem C10_file_update_counts (rtest : String → String → String → Bool)
    (coll : List Doc) (q upd : Doc)
    (hmatch : coll.any (fun d => matchQuery rtest d q) = true) :
    (fileUpdateOne rtest coll q upd).2 = (1, 1) ∧
    (truthyProp upd "$set" = false → truthyProp upd "$push" = false →
      (fileUpdateOne rtest coll q upd).1 = coll) := by
  constructor
  · unfold fileUpdateOne
    cases hgo : fileUpdateGo rtest q upd coll with
    | none =>
      have := fileUpdateGo_isSome rtest q upd coll
      rw [hgo, hmatch] at this
      simp at this
    | some c => rfl
  · intro hset hpush
    unfold fileUpdateOne
    rw [fileUpdateGo_noop rtest q upd coll hset hpush, hmatch]
    rfl

/-- C10 (witness): a one-document collection updated by
`{$inc: {likes: 1}}` — counts are `(1, 1)` and the collection (hence the
document's `likes`) is unchanged. -/
theorem C10_witness :
    ([[("_id", JVal.str "a"), ("likes", JVal.num 0)]] : List Doc).any
      (fun d => matchQuery rtestNone d [("_id", JVal.str "a")]) = true ∧
    ((fileUpdateOne rtestNone [[("_id", JVal.str "a"), ("likes", JVal.num 0)]]
        [("_id", JVal.str "a")]
        [("$inc", JVal.obj [("likes", JVal.num 1)])]).2 = (1, 1) ∧
     (truthyProp [("$inc", JVal.obj [("likes", JVal.num 1)])] "$set" = false →
      truthyProp [("$inc", JVal.obj [("likes", JVal.num 1)])] "$push" = false →
      (fileUpdateOne rtestNone
        [[("_id", JVal.str "a"), ("likes", JVal.num 0)]]
        [("_id", JVal.str "a")]
        [("$inc", JVal.obj [("likes", JVal.num 1)])]).1
        = [[("_id", JVal.str "a"), ("likes", JVal.num 0)]])) :=
  ⟨by decide,
   C10_file_update_counts rtestNone
     [[("_id", JVal.str "a"), ("likes", JVal.num 0)]]
     [("_id", JVal.str "a")] [("$inc", JVal.obj [("likes", JVal.num 1)])]
     (by decide)⟩

/-- C2 (counterexample): the relational write/read field translations
are not mutually inverse.  Writing `{githubUrl: "x"}` stores column
`github_url`, but the read side maps only `id`, `api_key`, `user_id`,
`created_at` and `last_active` back to logical names: the read-back
document has no `githubUrl` field (the value survives only under the
column name `github_url`). -/
theorem C2_counterexample :
    docGet [("githubUrl", JVal.str "x")] "githubUrl"
      = some (JVal.str "x") ∧
    docGet (pgReadDoc (pgInsertRow [("githubUrl", JVal.str "x")] 1))
      "githubUrl" = none ∧
    docGet (pgReadDoc (pgInsertRow [("githubUrl", JVal.str "x")] 1))
      "github_url" = some (JVal.str "x") := ⟨rfl, rfl, rfl⟩

/-- C2 (amended): the round trip preserves a logical field name and its
value exactly on the read side's alias set `userId`, `apiKey`, `created`,
`lastActive`, and on fields the write map passes through unchanged
(other than the identity names); the remaining mapped fields
(`githubUrl`, `authorId`, ...) come back under their column names, so
the translation pair is not mutually inverse over the full fixed field
set.  The hypothesis asks the mapped column names of the document to be
distinct, as they are for every real document (a JS object cannot carry
duplicate keys and no caller mixes a logical name with its column
name). -/
theorem C2_pg_roundtrip_partial (doc : Doc) (newId : Int) (k : String)
    (v : JVal)
    (hnd : (doc.map (fun kv => insertFieldMap kv.1)).Nodup)
    (hget : docGet doc k = some v)
    (hk : k ∈ (["userId", "apiKey", "created", "lastActive"] : List String) ∨
      (insertFieldMap k = k ∧
        k ∉ (["id", "_id", "apiKey", "userId", "created",
              "lastActive"] : List String))) :
    docGet (pgReadDoc (pgInsertRow doc newId)) k = some v := by
  have hkeys := pgInsertRow_keys doc newId hnd
  have hndrow := pgInsertRow_keys_nodup doc newId hnd
  have hro : ∀ kv ∈ pgInsertRow doc newId, kv.1 ≠ "_id" ∧ kv.1 ≠ "apiKey" ∧
      kv.1 ≠ "userId" ∧ kv.1 ≠ "created" ∧ kv.1 ≠ "lastActive" := by
    intro kv hkv
    rcases hkeys kv hkv with hid | ⟨k₀, hk₀⟩
    · rw [hid]; exact ⟨by decide, by decide, by decide, by decide, by decide⟩
    · rw [hk₀]; exact insertFieldMap_ne_read_aliases k₀
  rw [pgReadDoc_eq _ hro hndrow]
  have hidnone : ∀ s : String, s ≠ "_id" →
      docGet [("_id", docGetU (pgInsertRow doc newId) "id")] s = none := by
    intro s hs
    refine docGet_eq_none_of_forall _ _ ?_
    intro kv' hkv'
    have hv : kv' = ("_id", docGetU (pgInsertRow doc newId) "id") := by
      simpa using hkv'
    rw [hv]
    exact fun hc => hs hc.symm
  rcases hk with hk | ⟨hself, hnotin⟩
  · have hk' : k = "userId" ∨ k = "apiKey" ∨ k = "created" ∨
        k = "lastActive" := by simpa using hk
    have halias : ∀ col : String, insertFieldMap k = col →
        docGet (pgInsertRow doc newId) col = some v := by
      intro col hcol
      have h1 : k ≠ "_id" := by rcases hk' with rfl | rfl | rfl | rfl <;> decide
      have h2 : k ≠ "id" := by rcases hk' with rfl | rfl | rfl | rfl <;> decide
      rw [← hcol]
      exact pgInsertRow_get doc newId k v hnd hget h1 h2
    have hrownone : docGet (pgInsertRow doc newId) k = none := by
      refine docGet_eq_none_of_forall _ _ ?_
      intro kv hkv
      rcases hk' with rfl | rfl | rfl | rfl
      · exact (hro kv hkv).2.2.1
      · exact (hro kv hkv).2.1
      · exact (hro kv hkv).2.2.2.1
      · exact (hro kv hkv).2.2.2.2
    rcases hk' with rfl | rfl | rfl | rfl
    · rw [docGet_append, docGet_append, hidnone _ (by decide), hrownone]
      simp only [Option.none_or]
      have hv := halias "user_id" rfl
      simp [docGet_cons, docGetU, hv]
    · rw [docGet_append, docGet_append, hidnone _ (by decide), hrownone]
      simp only [Option.none_or]
      have hv := halias "api_key" rfl
      simp [docGet_cons, docGetU, hv]
    · rw [docGet_append, docGet_append, hidnone _ (by decide), hrownone]
      simp only [Option.none_or]
      have hv := halias "created_at" rfl
      simp [docGet_cons, docGetU, hv]
    · rw [docGet_append, docGet_append, hidnone _ (by decide), hrownone]
      simp only [Option.none_or]
      have hv := halias "last_active" rfl
      simp [docGet_cons, docGetU, hv]
  · have hne : k ≠ "id" ∧ k ≠ "_id" ∧ k ≠ "apiKey" ∧ k ≠ "userId" ∧
        k ≠ "created" ∧ k ≠ "lastActive" := by
      refine ⟨?_, ?_, ?_, ?_, ?_, ?_⟩ <;>
        (intro hc; exact hnotin (by rw [hc]; decide))
    have hrow : docGet (pgInsertRow doc newId) k = some v := by
      have := pgInsertRow_get doc newId k v hnd hget hne.2.1 hne.1
      rwa [hself] at this
    rw [docGet_append, docGet_append, hidnone k hne.2.1, hrow]
    rfl

/-- C2 (witness): the amended round trip at the concrete document
`{userId: 7, title: "T"}` for the mapped field `userId`. -/
theorem C2_witness :
    (([("userId", JVal.num 7), ("title", JVal.str "T")] : Doc).map
      (fun kv => insertFieldMap kv.1)).Nodup ∧
    docGet [("userId", JVal.num 7), ("title", JVal.str "T")] "userId"
      = some (JVal.num 7) ∧
    ("userId" ∈ (["userId", "apiKey", "created", "lastActive"] :
        List String) ∨
      (insertFieldMap "userId" = "userId" ∧
        "userId" ∉ (["id", "_id", "apiKey", "userId", "created",
              "lastActive"] : List String))) ∧
    docGet (pgReadDoc (pgInsertRow
        [("userId", JVal.num 7), ("title", JVal.str "T")] 5)) "userId"
      = some (JVal.num 7) :=
  ⟨by decide, rfl, by decide,
   C2_pg_roundtrip_partial [("userId", JVal.num 7), ("title", JVal.str "T")]
     5 "userId" (JVal.num 7) (by decide) rfl (by decide)⟩

/-- C7 (confirmed): `find` on the file backend with a descending sort
(`order = -1`) on a numeric field returns exactly the matching documents
(a permutation of the filter's output) in non-increasing order of that
field — ties included, every pair of positions is ordered — and
re-querying the unchanged collection returns the identical list, since
the query pipeline is a pure function of the stored collection. -/
theorem C7_file_sort_desc (rtest : String → String → String → Bool)
    (coll : List Doc) (q : Doc) (key : String)
    (hnum : (fileFind rtest coll q).all
      (fun d => isNum (docGetU d key)) = true) :
    (fileFindSort rtest coll q key (-1)).Perm (fileFind rtest coll q) ∧
    (fileFindSort rtest coll q key (-1)).Pairwise
      (fun a b => numOf (docGetU b key) ≤ numOf (docGetU a key)) ∧
    (∀ coll₂, coll₂ = coll →
      fileFindSort rtest coll₂ q key (-1)
        = fileFindSort rtest coll q key (-1)) := by
  have hperm : (fileFindSort rtest coll q key (-1)).Perm
      (fileFind rtest coll q) := sortByLe_perm _ _
  refine ⟨hperm, ?_, fun c h => by rw [h]⟩
  have hQ : ∀ d ∈ fileFind rtest coll q, isNum (docGetU d key) = true :=
    fun d hd => List.all_eq_true.mp hnum d hd
  have htot : ∀ a b, isNum (docGetU a key) = true →
      isNum (docGetU b key) = true →
      fileSortCmpLe key (-1) a b = true ∨
      fileSortCmpLe key (-1) b a = true := by
    intro a b hA hB
    rcases Int.le_total (numOf (docGetU b key)) (numOf (docGetU a key))
      with h | h
    · exact Or.inl ((fileSortCmpLe_desc_num key a b hA hB).mpr h)
    · exact Or.inr ((fileSortCmpLe_desc_num key b a hB hA).mpr h)
  have htrans : ∀ a b c, isNum (docGetU a key) = true →
      isNum (docGetU b key) = true → isNum (docGetU c key) = true →
      fileSortCmpLe key (-1) a b = true →
      fileSortCmpLe key (-1) b c = true →
      fileSortCmpLe key (-1) a c = true := by
    intro a b c hA hB hC hab hbc
    refine (fileSortCmpLe_desc_num key a c hA hC).mpr ?_
    exact le_trans ((fileSortCmpLe_desc_num key b c hB hC).mp hbc)
      ((fileSortCmpLe_desc_num key a b hA hB).mp hab)
  have hpw := sortByLe_pairwise (fileSortCmpLe key (-1))
    (fun d => isNum (docGetU d key) = true) (fileFind rtest coll q) hQ
    htot htrans
  refine hpw.imp_of_mem ?_
  intro a b hamem hbmem hle
  have hA : isNum (docGetU a key) = true := hQ a (hperm.mem_iff.mp hamem)
  have hB : isNum (docGetU b key) = true := hQ b (hperm.mem_iff.mp hbmem)
  exact (fileSortCmpLe_desc_num key a b hA hB).mp hle

/-- C7 (witness): the sorted query at a concrete collection with a tie
on the sort field and one non-matching document. -/
theorem C7_witness :
    (fileFind rtestNone
      [[("t", JVal.num 1), ("cat", JVal.str "a")],
       [("t", JVal.num 3), ("cat", JVal.str "a")],
       [("t", JVal.num 2), ("cat", JVal.str "b")],
       [("t", JVal.num 3), ("cat", JVal.str "a")]]
      [("cat", JVal.str "a")]).all
      (fun d => isNum (docGetU d "t")) = true ∧
    ((fileFindSort rtestNone
      [[("t", JVal.num 1), ("cat", JVal.str "a")],
       [("t", JVal.num 3), ("cat", JVal.str "a")],
       [("t", JVal.num 2), ("cat", JVal.str "b")],
       [("t", JVal.num 3), ("cat", JVal.str "a")]]
      [("cat", JVal.str "a")] "t" (-1)).Perm
      (fileFind rtestNone
      [[("t", JVal.num 1), ("cat", JVal.str "a")],
       [("t", JVal.num 3), ("cat", JVal.str "a")],
       [("t", JVal.num 2), ("cat", JVal.str "b")],
       [("t", JVal.num 3), ("cat", JVal.str "a")]]
      [("cat", JVal.str "a")]) ∧
    (fileFindSort rtestNone
      [[("t", JVal.num 1), ("cat", JVal.str "a")],
       [("t", JVal.num 3), ("cat", JVal.str "a")],
       [("t", JVal.num 2), ("cat", JVal.str "b")],
       [("t", JVal.num 3), ("cat", JVal.str "a")]]
      [("cat", JVal.str "a")] "t" (-1)).Pairwise
      (fun a b => numOf (docGetU b "t") ≤ numOf (docGetU a "t")) ∧
    (∀ coll₂, coll₂ =
      [[("t", JVal.num 1), ("cat", JVal.str "a")],
       [("t", JVal.num 3), ("cat", JVal.str "a")],
       [("t", JVal.num 2), ("cat", JVal.str "b")],
       [("t", JVal.num 3), ("cat", JVal.str "a")]] →
      fileFindSort rtestNone coll₂ [("cat", JVal.str "a")] "t" (-1)
        = fileFindSort rtestNone
          [[("t", JVal.num 1), ("cat", JVal.str "a")],
           [("t", JVal.num 3), ("cat", JVal.str "a")],
           [("t", JVal.num 2), ("cat", JVal.str "b")],
           [("t", JVal.num 3), ("cat", JVal.str "a")]]
          [("cat", JVal.str "a")] "t" (-1))) :=
  ⟨by decide,
   C7_file_sort_desc rtestNone
     [[("t", JVal.num 1), ("cat", JVal.str "a")],
      [("t", JVal.num 3), ("cat", JVal.str "a")],
      [("t", JVal.num 2), ("cat", JVal.str "b")],
      [("t", JVal.num 3), ("cat", JVal.str "a")]]
     [("cat", JVal.str "a")] "t" (by decide)⟩

/-- C9 (confirmed): with a document-store connection string configured
but unreachable (`mongoConnectOk = false`) and no relational or forced
file configuration, `connectDB` returns the file backend in
hosted-production mode and exits the process otherwise; and the file
backend handle it returns supports a successful `insertOne` followed by
a successful `findOne` of the inserted document (by its `_id`). -/
theorem C9_connect_fallback (e : DbEnv)
    (h1 : e.databaseUrl = false) (h2 : e.dbHost = false)
    (h3 : e.useFileDb = false) (h4 : e.mongodbUri = true) :
    (e.production = true → connectDBSelect e false = .fileBackend) ∧
    (e.production = false → connectDBSelect e false = .fatalExit) ∧
    (∀ (rtest : String → String → String → Bool) (gen : String)
      (now : JVal) (coll : List Doc) (doc : Doc),
      (∀ d ∈ coll,
        matchQuery rtest d [("_id", assignedId gen doc)] = false) →
      isObjectType (assignedId gen doc) = false →
      (fileInsertOne gen now coll doc).2 = assignedId gen doc ∧
      fileFindOne rtest (fileInsertOne gen now coll doc).1
          [("_id", (fileInsertOne gen now coll doc).2)]
        = some (fileInsertDoc gen now doc)) := by
  refine ⟨?_, ?_, ?_⟩
  · intro hp
    simp [connectDBSelect, h1, h2, h3, h4, hp]
  · intro hp
    simp [connectDBSelect, h1, h2, h3, h4, hp]
  · intro rtest gen now coll doc hfresh hscalar
    exact ⟨rfl, fileInsert_find_id rtest gen now coll doc hfresh hscalar⟩

/-- C9 (witness): the fallback at the concrete environment of the
scenario — Mongo URI configured, hosted-production mode, connection
failing — and the file handle's insert/find succeeding on an empty
collection. -/
theorem C9_witness :
    (DbEnv.mk false false false true true).databaseUrl = false ∧
    (DbEnv.mk false false false true true).dbHost = false ∧
    (DbEnv.mk false false false true true).useFileDb = false ∧
    (DbEnv.mk false false false true true).mongodbUri = true ∧
    (((DbEnv.mk false false false true true).production = true →
      connectDBSelect (DbEnv.mk false false false true true) false
        = .fileBackend) ∧
    ((DbEnv.mk false false false true true).production = false →
      connectDBSelect (DbEnv.mk false false false true true) false
        = .fatalExit) ∧
    (∀ (rtest : String → String → String → Bool) (gen : String)
      (now : JVal) (coll : List Doc) (doc : Doc),
      (∀ d ∈ coll,
        matchQuery rtest d [("_id", assignedId gen doc)] = false) →
      isObjectType (assignedId gen doc) = false →
      (fileInsertOne gen now coll doc).2 = assignedId gen doc ∧
      fileFindOne rtest (fileInsertOne gen now coll doc).1
          [("_id", (fileInsertOne gen now coll doc).2)]
        = some (fileInsertDoc gen now doc))) :=
  ⟨rfl, rfl, rfl, rfl,
   C9_connect_fallback (DbEnv.mk false false false true true)
     rfl rfl rfl rfl⟩

end AiHub
